import Mathlib

/-!
Shallow embedding of the command-line option parser in `src/commandline.cpp`
(class `commandline::interface`), together with theorems settling the claims
about it.

Modelling conventions:
- `std::string` is Lean `String`; `std::vector<option_t>` is `List option_t`;
  the `std::unordered_map<std::string, std::vector<std::string>>` result table
  is an association list `keyval_t` (the map's iteration order is never
  observed by the functions under study, only lookup/insert).
- The C argument vector `char** argv` is a `List String` of the tokens after
  the program name; the terminating NULL pointer is the end of the list.  A
  read of `*(argp+1)` when `argp` sits on the last token reads the
  terminator, which is in bounds; the one unchecked read in the source is the
  initial `std::string option = *argp;` in `interface::parse`, modelled by the
  `nullRead` outcome when the token list is empty.
- Process termination is made explicit in the result type `ParseOutcome`:
  `exitFail msg` models `fprintf(stderr, ...); exit(1)` (the diagnostic text
  is carried, minus the decorative single quotes of the C format strings),
  `exitHelp out` models `usage(); exit(0)` carrying the usage text, and
  `ok table` is normal return with the final table.
- The `PROGRAM` macro is the explicit parameter `prog`.
- `std::string::substr` on the descriptor spellings is modelled with
  `String.drop`, and the `snprintf` truncation of the usage argument field
  (buffer of `kArgumentNameLength = 32` chars including the NUL) with
  `String.take 31`.
-/

namespace Commandline

/-- The `argument_t` enum of `commandline.hpp`. -/
inductive argument_t where
  | no_argument
  | required_argument
  | optional_argument
  | list_argument
deriving DecidableEq

/-- The `option` struct (`option_t`) of `commandline.hpp`. -/
structure option_t where
  shortopt : String
  longopt : String
  name : String
  argument : argument_t
  desc : String
deriving DecidableEq

/-- Embeds `optlist_t`: the option catalog. -/
abbrev optlist_t := List option_t

/-- Embeds `keyval_t`: the result table, an association list from canonical key to
the ordered list of values recorded for it. -/
abbrev keyval_t := List (String × List String)

/-- Helper for `interface::extract`: split a character list at the first
`'='`, returning the parts before and after it, or `none` when no `'='`
occurs (this mirrors `option.find("=") == std::string::npos` plus the
index-scanning loop of the source). -/
def splitAtEq : List Char → Option (List Char × List Char)
  | [] => none
  | c :: cs =>
    if c = '=' then some ([], cs)
    else
      match splitAtEq cs with
      | none => none
      | some p => some (c :: p.1, p.2)

/-- Embeds `interface::extract(option, field)`: field 1 is the part before the first
`'='` (the whole string when there is none), field 2 the part after it
(empty when there is none); any other field yields the empty string. -/
def extract (option : String) (field : Int) : String :=
  if field ≠ 1 ∧ field ≠ 2 then ""
  else
    match splitAtEq option.toList with
    | none => if field = 1 then option else ""
    | some p => if field = 1 then String.mk p.1 else String.mk p.2

/-- Embeds `interface::extract_option`. -/
def extract_option (option : String) : String :=
  extract option 1

/-- Embeds `interface::extract_value`. -/
def extract_value (option : String) : String :=
  extract option 2

/-- Embeds `interface::is_short_option(const option_t*, std::string)` with a
non-null descriptor. -/
def is_short_option_d (data : option_t) (option : String) : Bool :=
  option == data.shortopt

/-- Embeds `interface::is_long_option(const option_t*, std::string)` with a
non-null descriptor. -/
def is_long_option_d (data : option_t) (option : String) : Bool :=
  option == data.longopt || extract_option option == data.longopt

/-- Embeds `interface::is_option(const option_t*, std::string)` with a non-null
descriptor. -/
def is_option_d (data : option_t) (option : String) : Bool :=
  is_short_option_d data option || is_long_option_d data option

/-- Embeds `interface::find_option`: the first catalog descriptor matched by the
token, or `none` (the NULL return). -/
def find_option (opts : optlist_t) (option : String) : Option option_t :=
  opts.find? (fun d => is_option_d d option)

/-- Embeds `interface::is_short_option(std::string)`. -/
def is_short_option (opts : optlist_t) (option : String) : Bool :=
  match find_option opts option with
  | some data => is_short_option_d data option
  | none => false

/-- Embeds `interface::is_long_option(std::string)`. -/
def is_long_option (opts : optlist_t) (option : String) : Bool :=
  match find_option opts option with
  | some data => is_long_option_d data option
  | none => false

/-- Embeds `interface::is_option(std::string)`. -/
def is_option (opts : optlist_t) (option : String) : Bool :=
  is_short_option opts option || is_long_option opts option

/-- The key computed from a resolved descriptor inside `interface::to_key`:
the long form without its first two characters when a long form exists, else
the short form without its first character, else the empty string. -/
def keyOf (data : option_t) : String :=
  if !data.longopt.isEmpty then data.longopt.drop 2
  else if !data.shortopt.isEmpty then data.shortopt.drop 1
  else ""

/-- Embeds `interface::to_key`: when the input does not start with `'-'` (in the
source, `input[0] != '-'`, where indexing an empty `std::string` at 0 reads
the NUL terminator), `"--"` is prefixed first and on lookup failure replaced
by a single `"-"`; the resolved descriptor is then reduced to its canonical
key, with the empty string signalling failure. -/
def to_key (opts : optlist_t) (input : String) : String :=
  if input.toList.head? ≠ some '-' then
    match find_option opts ("--" ++ input) with
    | some data => keyOf data
    | none =>
      match find_option opts ("-" ++ input) with
      | some data => keyOf data
      | none => ""
  else
    match find_option opts input with
    | some data => keyOf data
    | none => ""

/-- Embeds `m_table[key].push_back(value)`: append `value` to the entry for `key`,
creating the entry (as the one-element list) when absent. -/
def tbl_insert : keyval_t → String → String → keyval_t
  | [], key, value => [(key, [value])]
  | (k, vs) :: rest, key, value =>
    if k = key then (k, vs ++ [value]) :: rest
    else (k, vs) :: tbl_insert rest key value

/-- Embeds `m_table.find(key)` as an association-list lookup. -/
def tbl_find : keyval_t → String → Option (List String)
  | [], _ => none
  | (k, vs) :: rest, key => if k = key then some vs else tbl_find rest key

/-- Embeds `interface::set`: canonicalize the option via `to_key`; on failure return
`-1` leaving the table unchanged, otherwise push the value and return `0`.
The pair carries the C `int` return and the updated table. -/
def set (opts : optlist_t) (table : keyval_t) (option value : String) :
    Int × keyval_t :=
  let key := to_key opts option
  if key.isEmpty then (-1, table)
  else (0, tbl_insert table key value)

/-- Embeds `interface::has`: the canonical key is present in the table. -/
def has (opts : optlist_t) (table : keyval_t) (option : String) : Bool :=
  (tbl_find table (to_key opts option)).isSome

/-- Embeds `interface::get`: the first recorded value when `has` holds, else the
empty string.  (`.at(0)` is modelled by `List.headD ""`; every entry the
engine creates is nonempty, so the default is never the observed value of a
present key.) -/
def get (opts : optlist_t) (table : keyval_t) (option : String) : String :=
  if has opts table option then
    match tbl_find table (to_key opts option) with
    | some vs => vs.headD ""
    | none => ""
  else ""

/-- The `=<name>` argument field of a usage line, truncated by `snprintf` to
the 32-byte buffer (31 characters plus NUL); empty when the descriptor has no
argument name. -/
def arg_field (name : String) : String :=
  if name.isEmpty then "" else ("=<" ++ name ++ ">").take 31

/-- One descriptor's paragraph of `interface::usage`. -/
def usage_entry (data : option_t) : String :=
  "\n    " ++ data.shortopt ++ ", " ++ data.longopt ++ arg_field data.name
    ++ "\n" ++ "        " ++ data.desc ++ "\n"

/-- Embeds `interface::usage`: the full usage text, one paragraph per descriptor in
catalog order. -/
def usage (prog : String) (opts : optlist_t) : String :=
  "Usage: " ++ prog ++ " [option]...\n\nOptions:"
    ++ String.join (opts.map usage_entry)

/-- Observable outcome of `interface::parse`: normal return with the final
table, `exit(1)` with a diagnostic, `exit(0)` after printing usage, or the
undefined construction of a `std::string` from the NULL terminator. -/
inductive ParseOutcome where
  | ok (table : keyval_t)
  | exitFail (msg : String)
  | exitHelp (out : String)
  | nullRead
deriving DecidableEq

/-- What one iteration of the scan loop of `interface::parse` does with the
current token: stop the whole parse with an outcome, advance the cursor by
one (`advance`), or additionally consume the lookahead token as a value
(`consume`, only produced when a lookahead exists).  The carried fields are
the new values of the `option` variable, the `listflag`, and the table. -/
inductive StepRes where
  | stop (o : ParseOutcome)
  | advance (option : String) (listflag : Bool) (table : keyval_t)
  | consume (option : String) (listflag : Bool) (table : keyval_t)
deriving DecidableEq

/-- One iteration of the loop body of `interface::parse`, with
`parse_list_argument`, `parse_option`, `parse_argument`,
`parse_help_option`, `parse_short_argument` and `parse_long_argument`
inlined at their unique call sites.  `tok` is `*argp`, `lookahead` is
`*(argp+1)` (`none` for the NULL terminator); the source never reads
further. -/
def parse_step (opts : optlist_t) (prog : String) (tok : String)
    (lookahead : Option String) (option : String) (listflag : Bool)
    (table : keyval_t) : StepRes :=
  -- parse_list_argument: while the flag is up and the token is not an
  -- option, record it under the pending list option and continue.
  if listflag && !is_option opts tok then
    .advance option true (Commandline.set opts table option tok).2
  else
    -- parse_option: resolve the token or exit(1).
    match find_option opts tok with
    | none => .stop (.exitFail (prog ++ ": Invalid option " ++ tok))
    | some data =>
      -- parse_argument, dispatching on the arity.
      match data.argument with
      | .no_argument =>
        -- parse_help_option, then return without reaching set().
        if data.longopt == "--help" || data.shortopt == "-?" then
          .stop (.exitHelp (usage prog opts))
        else
          .advance tok false table
      | .list_argument =>
        match lookahead with
        | none =>
          .stop (.exitFail (prog ++ ": No argument after option " ++ tok
            ++ " with list_argument type."))
        | some _ =>
          .advance tok true table
      | .required_argument | .optional_argument =>
        if is_long_option_d data tok then
          -- parse_long_argument: key and value from the token itself.
          .advance tok false
            (Commandline.set opts table (extract_option tok) (extract_value tok)).2
        else if is_short_option_d data tok then
          -- parse_short_argument: consume the next token as the value
          -- unless it is itself an option.
          match lookahead with
          | some next =>
            if !is_option opts next then
              .consume tok false (Commandline.set opts table tok next).2
            else
              .advance tok false (Commandline.set opts table tok "").2
          | none =>
            .advance tok false (Commandline.set opts table tok "").2
        else
          .stop (.exitFail (prog ++ ": Unable to determine if " ++ tok
            ++ " is a long or short option."))

/-- The scan loop of `interface::parse`.  Arguments: remaining tokens (the
cursor `argp`), the `option` variable (the most recently seen option token),
the `listflag`, and the table.  Each recursive call re-enters the loop after
`++argp` (and an extra `++argp` when `parse_short_argument` consumed the
lookahead). -/
def parseLoop (opts : optlist_t) (prog : String) :
    List String → String → Bool → keyval_t → ParseOutcome
  | [], _, _, table => .ok table
  | [tok], option, listflag, table =>
    match parse_step opts prog tok none option listflag table with
    | .stop o => o
    | .advance o2 f2 t2 => parseLoop opts prog [] o2 f2 t2
    | .consume o2 f2 t2 => parseLoop opts prog [] o2 f2 t2
  | tok :: next :: rest2, option, listflag, table =>
    match parse_step opts prog tok (some next) option listflag table with
    | .stop o => o
    | .advance o2 f2 t2 => parseLoop opts prog (next :: rest2) o2 f2 t2
    | .consume o2 f2 t2 => parseLoop opts prog rest2 o2 f2 t2

/-- Embeds `interface::parse` over the tokens after the program name.  The source
initializes `std::string option = *argp` before the loop's NULL test; with no
token after the program name that constructs a string from NULL, modelled by
`nullRead`. -/
def parse (opts : optlist_t) (prog : String) (args : List String) :
    ParseOutcome :=
  match args with
  | [] => .nullRead
  | a :: rest => parseLoop opts prog (a :: rest) a false []

/-! ### Concrete catalogs used to instantiate the theorems -/

/-- The spec's worked example catalog: a `None`-arity flag and a
`Required`-arity option. -/
def catA : optlist_t :=
  [⟨"-v", "--verbose", "", .no_argument, "verbose output"⟩,
   ⟨"-o", "--output", "file", .required_argument, "output file"⟩]

/-- A catalog with a `List`-arity option and a second recognizable option. -/
def catL : optlist_t :=
  [⟨"-t", "--tags", "tag", .list_argument, "tag list"⟩,
   ⟨"-x", "--other", "", .no_argument, "another option"⟩]

/-- A catalog containing the help option. -/
def catH : optlist_t :=
  [⟨"-?", "--help", "", .no_argument, "print this message"⟩,
   ⟨"-v", "--verbose", "", .no_argument, "verbose output"⟩]

/-- A catalog whose only spelling for the option is the short form. -/
def catS : optlist_t :=
  [⟨"-n", "", "num", .optional_argument, "a number"⟩]

/-- A catalog whose help-spelled option has `List` arity, to exhibit that
the help shortcut is tied to arity `None`. -/
def catHL : optlist_t :=
  [⟨"-?", "--help", "arg", .list_argument, "list-arity help"⟩]

/-! ### General lemmas about the embedded operations -/

/-- Lemma: `parseLoop` unfolded one iteration at a time: the loop body consults only
the current token and the lookahead, then advances by one or two. -/
theorem parseLoop_cons (opts : optlist_t) (prog : String) (tok : String)
    (rest : List String) (option : String) (listflag : Bool)
    (table : keyval_t) :
    parseLoop opts prog (tok :: rest) option listflag table =
      match parse_step opts prog tok rest.head? option listflag table with
      | .stop o => o
      | .advance o2 f2 t2 => parseLoop opts prog rest o2 f2 t2
      | .consume o2 f2 t2 => parseLoop opts prog rest.tail o2 f2 t2 := by
  cases rest <;> rfl

/-- The string-level `is_option` test succeeds exactly when `find_option`
resolves the token (used by the source when probing lookahead tokens and
list-mode boundaries). -/
theorem is_option_iff_find (opts : optlist_t) (tok : String) :
    is_option opts tok = true ↔ (find_option opts tok).isSome := by
  unfold is_option is_short_option is_long_option
  cases h : find_option opts tok with
  | none => simp
  | some data =>
    simp only [Option.isSome_some, iff_true, Bool.or_eq_true]
    have hp := List.find?_some h
    unfold is_option_d at hp
    exact Bool.or_eq_true _ _ |>.mp hp

/-- A token that begins with a dash is canonicalized by resolving it directly
in the catalog. -/
theorem to_key_of_find (opts : optlist_t) (input : String) (data : option_t)
    (hhead : input.toList.head? = some '-')
    (hf : find_option opts input = some data) :
    to_key opts input = keyOf data := by
  unfold to_key
  rw [if_neg (by simp only [ne_eq, not_not]; exact hhead), hf]

/-- A nonempty string's `isEmpty` test is false. -/
theorem isEmpty_false_of_ne (s : String) (h : s ≠ "") : s.isEmpty = false := by
  cases hb : s.isEmpty
  · rfl
  · exact absurd ((String.isEmpty_iff s).mp hb) h

/-- Lemma: `set` on a dash-led spelling that resolves to a descriptor with a
non-empty canonical key: success, and the value is pushed under that key. -/
theorem set_resolved (opts : optlist_t) (table : keyval_t)
    (input value : String) (data : option_t)
    (hhead : input.toList.head? = some '-')
    (hf : find_option opts input = some data)
    (hkey : keyOf data ≠ "") :
    Commandline.set opts table input value =
      (0, tbl_insert table (keyOf data) value) := by
  unfold Commandline.set
  rw [to_key_of_find opts input data hhead hf,
    if_neg (by rw [isEmpty_false_of_ne (keyOf data) hkey]; exact Bool.false_ne_true)]

/-- Pushing a value onto the entry at the head of the table. -/
theorem tbl_insert_head (k : String) (vs : List String) (rest : keyval_t)
    (v : String) :
    tbl_insert ((k, vs) :: rest) k v = (k, vs ++ [v]) :: rest := by
  simp [tbl_insert]

/-- Inserting under a key makes it found, with the new value appended to
whatever was recorded before (the empty list when the key was absent). -/
theorem tbl_find_insert_self (table : keyval_t) (key value : String) :
    tbl_find (tbl_insert table key value) key =
      some ((tbl_find table key).getD [] ++ [value]) := by
  induction table with
  | nil => simp [tbl_insert, tbl_find]
  | cons kv rest ih =>
    obtain ⟨k, vs⟩ := kv
    by_cases h : k = key
    · simp [tbl_insert, tbl_find, h]
    · simp [tbl_insert, tbl_find, h, ih]

/-- Looking up the key just inserted from scratch. -/
theorem get_single (opts : optlist_t) (input key value : String)
    (hto : to_key opts input = key) :
    get opts [(key, [value])] input = value := by
  unfold get has
  rw [hto]
  simp [tbl_find]

/-- Lemma: `splitAtEq` on a list with no `'='`. -/
theorem splitAtEq_of_not_mem (l : List Char) (h : '=' ∉ l) :
    splitAtEq l = none := by
  induction l with
  | nil => rfl
  | cons c cs ih =>
    have hc : c ≠ '=' := fun hc => h (hc ▸ List.mem_cons_self c cs)
    have hcs : '=' ∉ cs := fun hm => h (List.mem_cons_of_mem c hm)
    simp [splitAtEq, hc, ih hcs]

/-- Lemma: `splitAtEq` splits at the first `'='`. -/
theorem splitAtEq_append (l1 l2 : List Char) (h : '=' ∉ l1) :
    splitAtEq (l1 ++ '=' :: l2) = some (l1, l2) := by
  induction l1 with
  | nil => simp [splitAtEq]
  | cons c cs ih =>
    have hc : c ≠ '=' := fun hc => h (hc ▸ List.mem_cons_self c cs)
    have hcs : '=' ∉ cs := fun hm => h (List.mem_cons_of_mem c hm)
    simp [splitAtEq, hc, ih hcs]

/-- Lemma: `extract_option`/`extract_value` on a token with no `'='`: the whole
token, and the empty string. -/
theorem extract_no_eq (tok : String) (h : '=' ∉ tok.toList) :
    extract_option tok = tok ∧ extract_value tok = "" := by
  unfold extract_option extract_value extract
  rw [splitAtEq_of_not_mem tok.toList h]
  norm_num

/-- Lemma: `extract_option`/`extract_value` on a token of shape
`before ++ "=" ++ after` with no `'='` in `before`: the two parts around the
first `'='`. -/
theorem extract_with_eq (tok : String) (l1 l2 : List Char)
    (htok : tok.toList = l1 ++ '=' :: l2) (h : '=' ∉ l1) :
    extract_option tok = String.mk l1 ∧ extract_value tok = String.mk l2 := by
  unfold extract_option extract_value extract
  rw [htok, splitAtEq_append l1 l2 h]
  norm_num

/-! ### Branch lemmas for one loop iteration -/

/-- List mode active, token not an option: record it and stay in list
mode. -/
theorem parse_step_collect (opts : optlist_t) (prog tok : String)
    (lookahead : Option String) (option : String) (table : keyval_t)
    (h : is_option opts tok = false) :
    parse_step opts prog tok lookahead option true table =
      .advance option true (Commandline.set opts table option tok).2 := by
  simp [parse_step, h]

/-- List mode active, token is an option: the flag is dropped and the very
same token is processed by the ordinary path of the loop body. -/
theorem parse_step_exit_list (opts : optlist_t) (prog tok : String)
    (lookahead : Option String) (option : String) (table : keyval_t)
    (h : is_option opts tok = true) :
    parse_step opts prog tok lookahead option true table =
      parse_step opts prog tok lookahead option false table := by
  simp [parse_step, h]

/-- Unrecognized token: `exit(1)` with the diagnostic naming the program and
the token. -/
theorem parse_step_invalid (opts : optlist_t) (prog tok : String)
    (lookahead : Option String) (option : String) (table : keyval_t)
    (hf : find_option opts tok = none) :
    parse_step opts prog tok lookahead option false table =
      .stop (.exitFail (prog ++ ": Invalid option " ++ tok)) := by
  simp [parse_step, hf]

/-- Case: `no_argument` descriptor that is not the help option: nothing is
recorded, the cursor just advances. -/
theorem parse_step_noarg (opts : optlist_t) (prog tok : String)
    (lookahead : Option String) (option : String) (table : keyval_t)
    (data : option_t) (hf : find_option opts tok = some data)
    (hA : data.argument = .no_argument)
    (hh1 : data.longopt ≠ "--help") (hh2 : data.shortopt ≠ "-?") :
    parse_step opts prog tok lookahead option false table =
      .advance tok false table := by
  simp [parse_step, hf, hA, hh1, hh2]

/-- Case: `no_argument` descriptor with a help spelling: usage is printed and the
process exits successfully. -/
theorem parse_step_help (opts : optlist_t) (prog tok : String)
    (lookahead : Option String) (option : String) (table : keyval_t)
    (data : option_t) (hf : find_option opts tok = some data)
    (hA : data.argument = .no_argument)
    (hh : data.longopt = "--help" ∨ data.shortopt = "-?") :
    parse_step opts prog tok lookahead option false table =
      .stop (.exitHelp (usage prog opts)) := by
  rcases hh with hh | hh <;> simp [parse_step, hf, hA, hh]

/-- Case: `list_argument` descriptor with no following token: `exit(1)` with the
diagnostic naming the program and the token. -/
theorem parse_step_list_none (opts : optlist_t) (prog tok : String)
    (option : String) (table : keyval_t)
    (data : option_t) (hf : find_option opts tok = some data)
    (hA : data.argument = .list_argument) :
    parse_step opts prog tok none option false table =
      .stop (.exitFail (prog ++ ": No argument after option " ++ tok
        ++ " with list_argument type.")) := by
  simp [parse_step, hf, hA]

/-- Case: `list_argument` descriptor with a following token: raise the list flag
and advance; nothing is recorded for the option token itself. -/
theorem parse_step_list_some (opts : optlist_t) (prog tok next : String)
    (option : String) (table : keyval_t)
    (data : option_t) (hf : find_option opts tok = some data)
    (hA : data.argument = .list_argument) :
    parse_step opts prog tok (some next) option false table =
      .advance tok true table := by
  simp [parse_step, hf, hA]

/-- Case: `required_argument`/`optional_argument` descriptor recognized through its
long form: key and value are both extracted from the token itself. -/
theorem parse_step_long (opts : optlist_t) (prog tok : String)
    (lookahead : Option String) (option : String) (table : keyval_t)
    (data : option_t) (hf : find_option opts tok = some data)
    (hA : data.argument = .required_argument ∨
      data.argument = .optional_argument)
    (hlong : is_long_option_d data tok = true) :
    parse_step opts prog tok lookahead option false table =
      .advance tok false
        (Commandline.set opts table (extract_option tok)
          (extract_value tok)).2 := by
  rcases hA with hA | hA <;> simp [parse_step, hf, hA, hlong]

/-- Case: `required_argument`/`optional_argument` descriptor recognized through its
short form, with a non-option lookahead: the lookahead is consumed as the
value. -/
theorem parse_step_short_consume (opts : optlist_t) (prog tok next : String)
    (option : String) (table : keyval_t)
    (data : option_t) (hf : find_option opts tok = some data)
    (hA : data.argument = .required_argument ∨
      data.argument = .optional_argument)
    (hlong : is_long_option_d data tok = false)
    (hshort : is_short_option_d data tok = true)
    (hnext : is_option opts next = false) :
    parse_step opts prog tok (some next) option false table =
      .consume tok false (Commandline.set opts table tok next).2 := by
  rcases hA with hA | hA <;> simp [parse_step, hf, hA, hlong, hshort, hnext]

/-- Case: `required_argument`/`optional_argument` descriptor recognized through its
short form, with a lookahead that is itself an option: the empty string is
recorded and the lookahead is left in place. -/
theorem parse_step_short_skip (opts : optlist_t) (prog tok next : String)
    (option : String) (table : keyval_t)
    (data : option_t) (hf : find_option opts tok = some data)
    (hA : data.argument = .required_argument ∨
      data.argument = .optional_argument)
    (hlong : is_long_option_d data tok = false)
    (hshort : is_short_option_d data tok = true)
    (hnext : is_option opts next = true) :
    parse_step opts prog tok (some next) option false table =
      .advance tok false (Commandline.set opts table tok "").2 := by
  rcases hA with hA | hA <;> simp [parse_step, hf, hA, hlong, hshort, hnext]

/-- No branch of the loop body stops with the `nullRead` outcome: every read
the loop body performs (`*argp`, `*(argp+1)`) is null-checked in the
source. -/
theorem parse_step_ne_stop_nullRead (opts : optlist_t) (prog tok : String)
    (lookahead : Option String) (option : String) (listflag : Bool)
    (table : keyval_t) :
    parse_step opts prog tok lookahead option listflag table ≠
      .stop .nullRead := by
  unfold parse_step
  repeat' split
  all_goals intro he
  all_goals injections

/-- The loop never produces the `nullRead` outcome, whatever state it starts
in. -/
theorem parseLoop_ne_nullRead (opts : optlist_t) (prog : String)
    (args : List String) (option : String) (listflag : Bool)
    (table : keyval_t) :
    parseLoop opts prog args option listflag table ≠ .nullRead := by
  suffices H : ∀ (n : ℕ) (args : List String), args.length ≤ n →
      ∀ (option : String) (listflag : Bool) (table : keyval_t),
        parseLoop opts prog args option listflag table ≠ .nullRead from
    H args.length args le_rfl option listflag table
  intro n
  induction n with
  | zero =>
    intro args h option listflag table
    have : args = [] := List.eq_nil_of_length_eq_zero (Nat.le_zero.mp h)
    subst this
    simp [parseLoop]
  | succ n ih =>
    intro args h option listflag table
    rcases args with _ | ⟨tok, rest⟩
    · simp [parseLoop]
    · have hlen : rest.length ≤ n := by
        simpa using Nat.le_of_succ_le_succ (by simpa using h)
      rw [parseLoop_cons]
      rcases hs : parse_step opts prog tok rest.head? option listflag table
        with o | ⟨o2, f2, t2⟩ | ⟨o2, f2, t2⟩
      · simp only
        intro he
        exact parse_step_ne_stop_nullRead opts prog tok rest.head? option
          listflag table (he ▸ hs)
      · exact ih rest hlen o2 f2 t2
      · exact ih rest.tail (le_trans (by simp [List.length_tail]) hlen) o2 f2 t2

/-- When the current token is a recognized option, list mode ends and the
loop handles that same token exactly as it would with the flag down. -/
theorem parseLoop_exit_list (opts : optlist_t) (prog tok : String)
    (rest : List String) (option : String) (table : keyval_t)
    (h : is_option opts tok = true) :
    parseLoop opts prog (tok :: rest) option true table =
      parseLoop opts prog (tok :: rest) option false table := by
  rw [parseLoop_cons, parseLoop_cons,
    parse_step_exit_list opts prog tok rest.head? option table h]

/-! ### Claim theorems -/

/-- C1 (amended): when `parse` processes a token that resolves to a
descriptor of arity `None` whose spellings are not the help spellings, the
engine records nothing at all for it — `parse_argument` returns from the
`no_argument` case before reaching `set`, so the result table is passed on
unchanged (hence `has(D.key)` stays false and `get(D.key)` stays the empty
string on a fresh table, contrary to the claimed value-less presence). -/
theorem noarg_presence_not_recorded (opts : optlist_t) (prog tok : String)
    (rest : List String) (option : String) (table : keyval_t)
    (data : option_t) (hf : find_option opts tok = some data)
    (hA : data.argument = .no_argument)
    (hh1 : data.longopt ≠ "--help") (hh2 : data.shortopt ≠ "-?") :
    parseLoop opts prog (tok :: rest) option false table =
      parseLoop opts prog rest tok false table := by
  rw [parseLoop_cons,
    parse_step_noarg opts prog tok rest.head? option table data hf hA hh1 hh2]

/-- C1 (witness): the amended claim at the spec's own example, the
`None`-arity descriptor `{-v, --verbose}` of `catA`. -/
theorem noarg_presence_not_recorded_witness :
    parseLoop catA "prog" ["-v"] "-v" false [] =
      parseLoop catA "prog" [] "-v" false [] :=
  noarg_presence_not_recorded catA "prog" "-v" [] "-v" []
    ⟨"-v", "--verbose", "", .no_argument, "verbose output"⟩
    (by decide) (by decide) (by decide) (by decide)

/-- C1 (counterexample): parsing `["-v"]` against `catA` (whose `-v` has
arity `None` and is not a help spelling) leaves the result table empty, so
`has` is false for every spelling of the option — the claimed value-less
presence (`has(D.key) = true`) does not hold. -/
theorem noarg_presence_claim_cex :
    parse catA "prog" ["-v"] = .ok [] ∧
      has catA [] "-v" = false ∧ has catA [] "--verbose" = false ∧
      has catA [] "verbose" = false ∧ get catA [] "-v" = "" := by
  decide

/-- C2: `interface::parse` reads `argv[1]` into a `std::string` before the
loop's NULL test.  With no token after the program name that read constructs
a string from the NULL terminator (the `nullRead` outcome); with at least
one token it is an in-bounds read, and every read inside the loop is
null-checked, so no run with a nonempty token list ever reaches the
out-of-bounds read. -/
theorem parse_initial_read (opts : optlist_t) (prog : String)
    (args : List String) :
    (args = [] → parse opts prog args = .nullRead) ∧
    (args ≠ [] → parse opts prog args ≠ .nullRead) := by
  constructor
  · intro h
    subst h
    rfl
  · intro h
    rcases args with _ | ⟨a, rest⟩
    · exact absurd rfl h
    · exact parseLoop_ne_nullRead opts prog (a :: rest) a false []

/-- C2 (witness): both sides of the dichotomy at concrete inputs. -/
theorem parse_initial_read_witness :
    parse catA "prog" [] = .nullRead ∧ parse catA "prog" ["-v"] ≠ .nullRead :=
  ⟨(parse_initial_read catA "prog" []).1 rfl,
   (parse_initial_read catA "prog" ["-v"]).2 (by decide)⟩

/-- C6: a `List`-arity option token with nothing after it is a hard parse
error: the loop stops with `exit(1)` (the `exitFail` outcome), carrying the
diagnostic that names the program and the offending token, and no result
table is produced. -/
theorem list_missing_argument_fatal (opts : optlist_t) (prog tok : String)
    (option : String) (table : keyval_t) (data : option_t)
    (hf : find_option opts tok = some data)
    (hA : data.argument = .list_argument) :
    parseLoop opts prog [tok] option false table =
      .exitFail (prog ++ ": No argument after option " ++ tok
        ++ " with list_argument type.") := by
  rw [parseLoop_cons]
  simp only [List.head?_nil, List.tail_nil,
    parse_step_list_none opts prog tok option table data hf hA]

/-- C6 (witness): the spec's own example, `["--tags"]` alone. -/
theorem list_missing_argument_fatal_witness :
    parse catL "prog" ["--tags"] =
      .exitFail "prog: No argument after option --tags with list_argument type." :=
  list_missing_argument_fatal catL "prog" "--tags" "--tags" []
    ⟨"-t", "--tags", "tag", .list_argument, "tag list"⟩ (by decide) (by decide)

/-- C7: a token resolves against the catalog exactly when some descriptor's
short form equals it, or its long form equals it, or its long form equals
the token with any `=value` suffix stripped (`extract_option`, which cuts at
the first `'='` and is the identity on tokens without one); and outside list
mode an unresolvable token makes the loop stop with `exit(1)` and the
diagnostic naming the program and the token. -/
theorem token_match_iff_and_unknown_fatal (opts : optlist_t)
    (prog tok : String) (rest : List String) (option : String)
    (table : keyval_t) :
    ((find_option opts tok).isSome ↔
      ∃ data ∈ opts, tok = data.shortopt ∨ tok = data.longopt ∨
        extract_option tok = data.longopt) ∧
    (find_option opts tok = none →
      parseLoop opts prog (tok :: rest) option false table =
        .exitFail (prog ++ ": Invalid option " ++ tok)) := by
  constructor
  · rw [find_option, List.find?_isSome]
    simp only [is_option_d, is_short_option_d, is_long_option_d,
      Bool.or_eq_true, beq_iff_eq]
  · intro hf
    rw [parseLoop_cons,
      parse_step_invalid opts prog tok rest.head? option table hf]

/-- C7 (witness): the resolution test at a matching and a non-matching
token, and the fatal outcome on the spec's `--bogus` example. -/
theorem token_match_iff_and_unknown_fatal_witness :
    (find_option catA "--output=x").isSome ∧
    parseLoop catA "prog" ["--bogus"] "--bogus" false [] =
      .exitFail "prog: Invalid option --bogus" :=
  ⟨(token_match_iff_and_unknown_fatal catA "prog" "--output=x" [] "" []).1.mpr
      ⟨⟨"-o", "--output", "file", .required_argument, "output file"⟩,
        by decide, Or.inr (Or.inr (by decide))⟩,
   (token_match_iff_and_unknown_fatal catA "prog" "--bogus" [] "--bogus" []).2
      (by decide)⟩

/-- C9: `set` canonicalizes its key via `to_key`; when canonicalization
fails (empty key) it returns `-1` and the table is untouched, otherwise it
returns `0` and appends the value to the canonical key's sequence, creating
the entry when absent. -/
theorem set_spec (opts : optlist_t) (table : keyval_t) (key value : String) :
    (to_key opts key = "" → Commandline.set opts table key value = (-1, table)) ∧
    (to_key opts key ≠ "" →
      Commandline.set opts table key value =
        (0, tbl_insert table (to_key opts key) value) ∧
      tbl_find (tbl_insert table (to_key opts key) value) (to_key opts key) =
        some ((tbl_find table (to_key opts key)).getD [] ++ [value])) := by
  constructor
  · intro h
    unfold Commandline.set
    rw [if_pos (by simp [String.isEmpty_iff, h])]
  · intro h
    refine ⟨?_, tbl_find_insert_self table (to_key opts key) value⟩
    unfold Commandline.set
    rw [if_neg (by simpa [String.isEmpty_iff] using h)]

/-- C9 (witness): failure on a spelling `catA` does not know, leaving the
table as it was; success on a resolvable spelling, appending the value. -/
theorem set_spec_witness :
    Commandline.set catA [("output", ["a"])] "bogus" "x" =
      (-1, [("output", ["a"])]) ∧
    Commandline.set catA [("output", ["a"])] "--output" "b" =
      (0, [("output", ["a", "b"])]) :=
  ⟨(set_spec catA [("output", ["a"])] "bogus" "x").1 (by decide),
   ((set_spec catA [("output", ["a"])] "--output" "b").2 (by decide)).1⟩

/-- C3: a `List`-arity option token followed by three non-option tokens and
then a recognized option token: starting from the empty table, the three
tokens are appended in order as the values of the list option's canonical
key, list mode ends at the recognized option token, and the loop continues
on that very token with the flag down — it is parsed as a separate option in
the same scan. -/
theorem list_collects_until_option (opts : optlist_t)
    (prog L a b c other : String) (rest : List String) (option : String)
    (data : option_t) (hf : find_option opts L = some data)
    (hA : data.argument = .list_argument)
    (hhead : L.toList.head? = some '-')
    (hkey : keyOf data ≠ "")
    (ha : is_option opts a = false) (hb : is_option opts b = false)
    (hc : is_option opts c = false)
    (hother : is_option opts other = true) :
    parseLoop opts prog (L :: a :: b :: c :: other :: rest) option false [] =
      parseLoop opts prog (other :: rest) L false [(keyOf data, [a, b, c])] := by
  have hsetL : ∀ (t : keyval_t) (v : String),
      Commandline.set opts t L v = (0, tbl_insert t (keyOf data) v) :=
    fun t v => set_resolved opts t L v data hhead hf hkey
  rw [parseLoop_cons opts prog L (a :: b :: c :: other :: rest) option false []]
  simp only [List.head?_cons]
  rw [parse_step_list_some opts prog L a option [] data hf hA]
  simp only
  rw [parseLoop_cons opts prog a (b :: c :: other :: rest) L true []]
  simp only [List.head?_cons]
  rw [parse_step_collect opts prog a (some b) L [] ha, hsetL]
  simp only [tbl_insert]
  rw [parseLoop_cons opts prog b (c :: other :: rest) L true
    [(keyOf data, [a])]]
  simp only [List.head?_cons]
  rw [parse_step_collect opts prog b (some c) L [(keyOf data, [a])] hb, hsetL,
    tbl_insert_head, List.singleton_append]
  simp only
  rw [parseLoop_cons opts prog c (other :: rest) L true [(keyOf data, [a, b])]]
  simp only [List.head?_cons]
  rw [parse_step_collect opts prog c (some other) L [(keyOf data, [a, b])] hc,
    hsetL, tbl_insert_head, List.cons_append, List.singleton_append]
  simp only
  rw [parseLoop_exit_list opts prog other rest L [(keyOf data, [a, b, c])]
    hother]

/-- C3 (witness): the spec's `--tags p q r --other` scenario over `catL`. -/
theorem list_collects_until_option_witness :
    parseLoop catL "prog" ["--tags", "p", "q", "r", "--other"] "x" false [] =
      parseLoop catL "prog" ["--other"] "--tags" false
        [("tags", ["p", "q", "r"])] :=
  list_collects_until_option catL "prog" "--tags" "p" "q" "r" "--other" [] "x"
    ⟨"-t", "--tags", "tag", .list_argument, "tag list"⟩
    (by decide) (by decide) (by decide) (by decide) (by decide) (by decide)
    (by decide) (by decide)

/-- C4: a `Required`/`Optional` option recognized through its short form:
when the following token exists and is not a recognized option spelling, it
is consumed as the value (and `get` of the short spelling returns it); when
the following token is a recognized option spelling, the empty string is
recorded instead and the cursor does not consume the following token — the
loop continues at that token. -/
theorem short_option_value (opts : optlist_t) (prog tok next : String)
    (rest : List String) (option : String) (table : keyval_t)
    (data : option_t) (hf : find_option opts tok = some data)
    (hA : data.argument = .required_argument ∨
      data.argument = .optional_argument)
    (hlong : is_long_option_d data tok = false)
    (hshort : is_short_option_d data tok = true)
    (hhead : tok.toList.head? = some '-')
    (hkey : keyOf data ≠ "") :
    (is_option opts next = false →
      parseLoop opts prog (tok :: next :: rest) option false table =
        parseLoop opts prog rest tok false
          (tbl_insert table (keyOf data) next) ∧
      get opts [(keyOf data, [next])] tok = next) ∧
    (is_option opts next = true →
      parseLoop opts prog (tok :: next :: rest) option false table =
        parseLoop opts prog (next :: rest) tok false
          (tbl_insert table (keyOf data) "") ∧
      get opts [(keyOf data, [""])] tok = "") := by
  constructor
  · intro hnext
    constructor
    · rw [parseLoop_cons]
      simp only [List.head?_cons, List.tail_cons]
      rw [parse_step_short_consume opts prog tok next option table data hf hA
          hlong hshort hnext,
        set_resolved opts table tok next data hhead hf hkey]
    · exact get_single opts tok (keyOf data) next
        (to_key_of_find opts tok data hhead hf)
  · intro hnext
    constructor
    · rw [parseLoop_cons]
      simp only [List.head?_cons]
      rw [parse_step_short_skip opts prog tok next option table data hf hA
          hlong hshort hnext,
        set_resolved opts table tok "" data hhead hf hkey]
    · exact get_single opts tok (keyOf data) ""
        (to_key_of_find opts tok data hhead hf)

/-- C4 (witness): `catA`'s `-o` followed by the non-option token `val`, and
followed by the option token `-v`. -/
theorem short_option_value_witness :
    (parseLoop catA "prog" ["-o", "val"] "x" false [] =
        parseLoop catA "prog" [] "-o" false [("output", ["val"])] ∧
      get catA [("output", ["val"])] "-o" = "val") ∧
    (parseLoop catA "prog" ["-o", "-v"] "x" false [] =
        parseLoop catA "prog" ["-v"] "-o" false [("output", [""])] ∧
      get catA [("output", [""])] "-o" = "") :=
  ⟨(short_option_value catA "prog" "-o" "val" [] "x" []
      ⟨"-o", "--output", "file", .required_argument, "output file"⟩
      (by decide) (Or.inl rfl) (by decide) (by decide) (by decide)
      (by decide)).1 (by decide),
   (short_option_value catA "prog" "-o" "-v" [] "x" []
      ⟨"-o", "--output", "file", .required_argument, "output file"⟩
      (by decide) (Or.inl rfl) (by decide) (by decide) (by decide)
      (by decide)).2 (by decide)⟩

/-- C5: a `Required`/`Optional` option recognized through its long form: the
stored key and value come from the token itself, the key being the part
before the first `'='` and the value the part after it (without `'='` the
token itself becomes the key and the value is empty), and `get` of the key
part returns the value part. -/
theorem long_option_value (opts : optlist_t) (prog tok : String)
    (rest : List String) (option : String) (table : keyval_t)
    (data : option_t) (hf : find_option opts tok = some data)
    (hA : data.argument = .required_argument ∨
      data.argument = .optional_argument)
    (hlong : is_long_option_d data tok = true) :
    (parseLoop opts prog (tok :: rest) option false table =
      parseLoop opts prog rest tok false
        (Commandline.set opts table (extract_option tok)
          (extract_value tok)).2) ∧
    (∀ l1 l2, tok.toList = l1 ++ '=' :: l2 → '=' ∉ l1 →
      extract_option tok = String.mk l1 ∧ extract_value tok = String.mk l2) ∧
    ('=' ∉ tok.toList → extract_option tok = tok ∧ extract_value tok = "") ∧
    (to_key opts (extract_option tok) ≠ "" →
      get opts (Commandline.set opts [] (extract_option tok)
          (extract_value tok)).2 (extract_option tok) = extract_value tok) := by
  refine ⟨?_, fun l1 l2 h1 h2 => extract_with_eq tok l1 l2 h1 h2,
    fun h => extract_no_eq tok h, ?_⟩
  · rw [parseLoop_cons,
      parse_step_long opts prog tok rest.head? option table data hf hA hlong]
  · intro hne
    unfold Commandline.set
    rw [if_neg (by simpa [String.isEmpty_iff] using hne)]
    simp only [tbl_insert]
    exact get_single opts (extract_option tok)
      (to_key opts (extract_option tok)) (extract_value tok) rfl

/-- C5 (witness): the spec's `--output=out.txt` example over `catA`. -/
theorem long_option_value_witness :
    (parseLoop catA "prog" ["--output=out.txt"] "x" false [] =
      parseLoop catA "prog" [] "--output=out.txt" false
        [("output", ["out.txt"])]) ∧
    extract_option "--output=out.txt" = "--output" ∧
    extract_value "--output=out.txt" = "out.txt" ∧
    extract_option "--output" = "--output" ∧
    extract_value "--output" = "" ∧
    get catA [("output", ["out.txt"])] "--output" = "out.txt" :=
  ⟨(long_option_value catA "prog" "--output=out.txt" [] "x" []
      ⟨"-o", "--output", "file", .required_argument, "output file"⟩
      (by decide) (Or.inl rfl) (by decide)).1,
   ((long_option_value catA "prog" "--output=out.txt" [] "x" []
      ⟨"-o", "--output", "file", .required_argument, "output file"⟩
      (by decide) (Or.inl rfl) (by decide)).2.1
      "--output".toList "out.txt".toList (by decide) (by decide)).1,
   ((long_option_value catA "prog" "--output=out.txt" [] "x" []
      ⟨"-o", "--output", "file", .required_argument, "output file"⟩
      (by decide) (Or.inl rfl) (by decide)).2.1
      "--output".toList "out.txt".toList (by decide) (by decide)).2,
   ((long_option_value catA "prog" "--output" [] "x" []
      ⟨"-o", "--output", "file", .required_argument, "output file"⟩
      (by decide) (Or.inl rfl) (by decide)).2.2.1 (by decide)).1,
   ((long_option_value catA "prog" "--output" [] "x" []
      ⟨"-o", "--output", "file", .required_argument, "output file"⟩
      (by decide) (Or.inl rfl) (by decide)).2.2.1 (by decide)).2,
   ((long_option_value catA "prog" "--output=out.txt" [] "x" []
      ⟨"-o", "--output", "file", .required_argument, "output file"⟩
      (by decide) (Or.inl rfl) (by decide)).2.2.2 (by decide))⟩

/-- C8: when a token resolves to a descriptor carrying a help spelling
(long form exactly `--help` or short form exactly `-?`), arity `None` makes
the engine print the usage text (`usage`, every descriptor's short/long
form, argument-name placeholder and description, in catalog order) and exit
successfully (`exitHelp`), with the table playing no role — no presence is
recorded; with `List` arity the shortcut does not fire: the loop simply
enters list mode. -/
theorem help_shortcut (opts : optlist_t) (prog tok : String)
    (rest : List String) (option : String) (table : keyval_t)
    (data : option_t) (hf : find_option opts tok = some data)
    (hh : data.longopt = "--help" ∨ data.shortopt = "-?") :
    (data.argument = .no_argument →
      parseLoop opts prog (tok :: rest) option false table =
        .exitHelp (usage prog opts)) ∧
    (data.argument = .list_argument → rest ≠ [] →
      parseLoop opts prog (tok :: rest) option false table =
        parseLoop opts prog rest tok true table) := by
  constructor
  · intro hA
    rw [parseLoop_cons,
      parse_step_help opts prog tok rest.head? option table data hf hA hh]
  · intro hA hrest
    rcases rest with _ | ⟨next, rest2⟩
    · exact absurd rfl hrest
    · rw [parseLoop_cons]
      simp only [List.head?_cons]
      rw [parse_step_list_some opts prog tok next option table data hf hA]

/-- C8 (witness): `--help` of arity `None` over `catH` prints usage and
exits successfully; the same spelling of arity `List` over `catHL` does
not. -/
theorem help_shortcut_witness :
    parseLoop catH "prog" ["--help"] "--help" false [] =
      .exitHelp (usage "prog" catH) ∧
    parseLoop catHL "prog" ["--help", "v"] "--help" false [] =
      parseLoop catHL "prog" ["v"] "--help" true [] :=
  ⟨(help_shortcut catH "prog" "--help" [] "--help" []
      ⟨"-?", "--help", "", .no_argument, "print this message"⟩
      (by decide) (Or.inl rfl)).1 rfl,
   (help_shortcut catHL "prog" "--help" ["v"] "--help" []
      ⟨"-?", "--help", "arg", .list_argument, "list-arity help"⟩
      (by decide) (Or.inl rfl)).2 rfl (by decide)⟩

/-- C10: canonicalization.  Any dash-led spelling that resolves to a
descriptor with a long form is stored under the long form minus its first
two characters (its leading `--`) — the very key `parse`'s calls to `set`
use for that descriptor, whichever spelling appeared on the command line;
a descriptor with only a short form is stored under the short form minus its
leading dash; and a spelling with no leading dash is tried with `--`
prefixed first, then with a single `-`, before `to_key` gives up with the
empty string. -/
theorem to_key_canonical (opts : optlist_t) :
    (∀ (data : option_t) (spelling : String),
      spelling.toList.head? = some '-' →
      find_option opts spelling = some data → data.longopt ≠ "" →
      to_key opts spelling = data.longopt.drop 2) ∧
    (∀ data : option_t, data.longopt = "" → data.shortopt ≠ "" →
      data.shortopt.toList.head? = some '-' →
      find_option opts data.shortopt = some data →
      to_key opts data.shortopt = data.shortopt.drop 1) ∧
    (∀ input : String, input.toList.head? ≠ some '-' →
      (∀ data, find_option opts ("--" ++ input) = some data →
        to_key opts input = keyOf data) ∧
      (find_option opts ("--" ++ input) = none →
        ∀ data, find_option opts ("-" ++ input) = some data →
          to_key opts input = keyOf data) ∧
      (find_option opts ("--" ++ input) = none →
        find_option opts ("-" ++ input) = none →
        to_key opts input = "")) := by
  refine ⟨?_, ?_, ?_⟩
  · intro data spelling hhead hf hl
    rw [to_key_of_find opts spelling data hhead hf]
    unfold keyOf
    rw [if_pos (by rw [isEmpty_false_of_ne data.longopt hl]; rfl)]
  · intro data hl hs hhead hf
    rw [to_key_of_find opts data.shortopt data hhead hf]
    unfold keyOf
    rw [if_neg (by rw [hl]; decide),
      if_pos (by rw [isEmpty_false_of_ne data.shortopt hs]; rfl)]
  · intro input hhead
    refine ⟨?_, ?_, ?_⟩
    · intro data hd
      unfold to_key
      rw [if_pos hhead, hd]
    · intro h1 data hd
      unfold to_key
      rw [if_pos hhead, h1, hd]
    · intro h1 h2
      unfold to_key
      rw [if_pos hhead, h1, h2]

/-- C10 (witness): both descriptor shapes of `catA`/`catS` and the
dash-less fallbacks, including the give-up case. -/
theorem to_key_canonical_witness :
    to_key catA "--output" = "output" ∧ to_key catA "-o" = "output" ∧
    to_key catS "-n" = "n" ∧ to_key catA "output" = "output" ∧
    to_key catS "n" = "n" ∧ to_key catA "bogus" = "" :=
  ⟨(to_key_canonical catA).1
      ⟨"-o", "--output", "file", .required_argument, "output file"⟩
      "--output" (by decide) (by decide) (by decide),
   (to_key_canonical catA).1
      ⟨"-o", "--output", "file", .required_argument, "output file"⟩
      "-o" (by decide) (by decide) (by decide),
   (to_key_canonical catS).2.1
      ⟨"-n", "", "num", .optional_argument, "a number"⟩
      rfl (by decide) (by decide) (by decide),
   ((to_key_canonical catA).2.2 "output" (by decide)).1
      ⟨"-o", "--output", "file", .required_argument, "output file"⟩
      (by decide),
   ((to_key_canonical catS).2.2 "n" (by decide)).2.1 (by decide)
      ⟨"-n", "", "num", .optional_argument, "a number"⟩ (by decide),
   ((to_key_canonical catA).2.2 "bogus" (by decide)).2.2
      (by decide) (by decide)⟩

end Commandline
